import Mathlib

/-!
# Verification of the GitHub stargazers extract-and-load engine

A shallow embedding, in Lean 4, of `src/extract_load/github_extract_load.py`
and the orchestration around it, together with proofs of the behavioural
properties stated in the specification.

Modelling conventions, used throughout:

* Machine integers and timestamps are `Int` (epoch seconds); page numbers,
  counts and HTTP status codes are `Nat`.
* The network is a value: a page fetch (`_fetch_page`) consumes a list of
  `Response` values, one per request the loop issues, and the eventual
  per-page outcome of a fetch is a `FetchResult`.  The regex that reads the
  last-page number out of the `Link` response header is modelled by its
  match result, an `Option Nat`.
* The DuckDB destination is a `Store`: a map from table name to the rows the
  table holds (`none` when the table does not exist).  The dlt pipeline run
  with the `append` disposition on a just-dropped table is modelled as
  creating the table with exactly the given records.
* Exceptions become explicit: fallible steps return `Except` values or carry
  a `success` flag, and `time.sleep` calls are recorded in a list so that
  back-off behaviour is provable.
-/

/-! ## Data model -/

/-- One stargazer row, with the fields built in `_fetch_page`
(`user_login`, `user_id`, `repo`, `starred_at`, `avatar_url`, `html_url`,
`extracted_at`).  Timestamps are epoch seconds; `starred_at` is `none` when
the API omitted it. -/
structure StargazerRecord where
  user_login : String
  user_id : Int
  repo : String
  starred_at : Option Int
  avatar_url : String
  html_url : String
  extracted_at : Int
deriving DecidableEq, Repr

/-- One element of the JSON array a successful stargazers response carries:
the fields of `item` that `_fetch_page` reads.  `starred_at` is the
already-parsed timestamp, `none` when the key is missing or empty. -/
structure ApiItem where
  user_login : String
  user_id : Int
  starred_at : Option Int
  avatar_url : String
  html_url : String
deriving DecidableEq, Repr

/-- One HTTP response to a stargazers page request: the status code, the
`X-RateLimit-Reset` header when present (epoch seconds), and the parsed JSON
body (meaningful only for success responses). -/
structure Response where
  status : Nat
  rateLimitReset : Option Int
  body : List ApiItem
deriving DecidableEq, Repr

/-- The eventual outcome of `_fetch_page` for one page: the `(page, records)`
pair it returns, or the `requests.HTTPError` that `raise_for_status` throws,
carried as the status code. -/
inductive FetchResult where
  | ok (page : Nat) (records : List StargazerRecord)
  | httpError (status : Nat)
deriving DecidableEq, Repr

/-- The repositories `run_extract_load` iterates over (module constant
`REPOS`). -/
def REPOS : List String :=
  ["dbt-labs/dbt-core", "apache/airflow", "dagster-io/dagster",
   "duckdb/duckdb", "dlt-hub/dlt"]

/-- The per-repo destination table dictionary (module constant
`REPO_TABLE_MAP`); lookup of a repo outside the dictionary is a `KeyError`,
modelled as `none`. -/
def REPO_TABLE_MAP (repo : String) : Option String :=
  if repo = "dbt-labs/dbt-core" then some "raw_dbt_core"
  else if repo = "apache/airflow" then some "raw_airflow"
  else if repo = "dagster-io/dagster" then some "raw_dagster"
  else if repo = "duckdb/duckdb" then some "raw_duckdb"
  else if repo = "dlt-hub/dlt" then some "raw_dlt"
  else none

/-- GitHub caps stargazer results at 40,000, i.e. 400 pages of 100. -/
def MAX_PAGES : Nat := 400

/-! ## Pagination discovery -/

/-- Function `_parse_last_page`.  The regex search for `page=(\d+)>; rel="last"` in
the `Link` header is modelled by its match result: `some v` when the header
names `v` as the last page, `none` when there is no match (header absent or
without a `rel="last"` part).  The function returns the matched number, and
1 when there is no match. -/
def _parse_last_page (linkMatch : Option Nat) : Nat :=
  linkMatch.getD 1

/-- Line 127 of the source: the discovered page count is the parsed
last-page value clamped to `MAX_PAGES`. -/
def discovered_last_page (linkMatch : Option Nat) : Nat :=
  min (_parse_last_page linkMatch) MAX_PAGES

/-! ## The page fetcher -/

/-- The wait `_fetch_page` computes on a rate-limit response at time `now`:
the reset header when present (defaulting to `now + 60`), minus `now`,
floored at zero, plus the 5 second safety buffer. -/
def rate_limit_wait (now : Int) (reset : Option Int) : Int :=
  max (reset.getD (now + 60) - now) 0 + 5

/-- The `while True` loop of `_fetch_page`, consuming one `Response` per
request it issues, starting at time `now`.  Returns the list of sleep
durations the loop performed and the outcome: `none` when the supplied
response list ran out with the loop still running (it retries forever on
rate limiting), otherwise the `FetchResult`.

* status 403 or 429: sleep `rate_limit_wait` and retry the same page;
* status 422 (the 40k cap): return `(page, [])`;
* any other status at least 400: `raise_for_status` throws;
* otherwise: parse the body, stamping every record with the current time. -/
def fetch_page_loop (repo : String) (page : Nat) :
    Int → List Response → List Int × Option FetchResult
  | _, [] => ([], none)
  | now, r :: rest =>
    if r.status = 403 ∨ r.status = 429 then
      let w := rate_limit_wait now r.rateLimitReset
      let rec' := fetch_page_loop repo page (now + w) rest
      (w :: rec'.1, rec'.2)
    else if r.status = 422 then
      ([], some (.ok page []))
    else if 400 ≤ r.status then
      ([], some (.httpError r.status))
    else
      ([], some (.ok page (r.body.map fun item =>
        { user_login := item.user_login
          user_id := item.user_id
          repo := repo
          starred_at := item.starred_at
          avatar_url := item.avatar_url
          html_url := item.html_url
          extracted_at := now })))

/-! ## `get_stargazers` -/

/-- The `for page in range(2, last_page + 1)` loop of `get_stargazers`,
with `pages` giving the eventual `_fetch_page` outcome for each page
number.  `n` is the number of remaining iterations, `start` the next page.
The loop stops at the first page with no records, and an `HTTPError` from
any fetch aborts the whole call. -/
def get_stargazers_loop (pages : Nat → FetchResult) :
    Nat → Nat → Except Nat (List StargazerRecord)
  | _, 0 => .ok []
  | start, n + 1 =>
    match pages start with
    | .httpError s => .error s
    | .ok _ records =>
      if records.isEmpty then .ok []
      else
        match get_stargazers_loop pages (start + 1) n with
        | .error s => .error s
        | .ok rest => .ok (records ++ rest)

/-- Function `get_stargazers`: fetch page 1; if it has no records return the empty
list at once.  Otherwise probe for the `Link` header (whose parsed match is
`linkMatch`), clamp the last page to `MAX_PAGES`, and append pages
2..last_page in ascending order, stopping at the first empty page. -/
def get_stargazers (pages : Nat → FetchResult) (linkMatch : Option Nat) :
    Except Nat (List StargazerRecord) :=
  match pages 1 with
  | .httpError s => .error s
  | .ok _ first_records =>
    if first_records.isEmpty then .ok []
    else
      match get_stargazers_loop pages 2 (discovered_last_page linkMatch - 1) with
      | .error s => .error s
      | .ok rest => .ok (first_records ++ rest)

/-- The page numbers the loop of `get_stargazers` requests, in order: each
iteration requests its page, and the loop stops after an error page or an
empty page. -/
def get_stargazers_loop_trace (pages : Nat → FetchResult) :
    Nat → Nat → List Nat
  | _, 0 => []
  | start, n + 1 =>
    start ::
      match pages start with
      | .httpError _ => []
      | .ok _ records =>
        if records.isEmpty then []
        else get_stargazers_loop_trace pages (start + 1) n

/-- The page numbers `get_stargazers` requests, in order: page 1 for the
first fetch; when it has records, page 1 again for the `Link` probe and
then the loop pages. -/
def get_stargazers_trace (pages : Nat → FetchResult) (linkMatch : Option Nat) :
    List Nat :=
  1 ::
    match pages 1 with
    | .httpError _ => []
    | .ok _ first_records =>
      if first_records.isEmpty then []
      else 1 :: get_stargazers_loop_trace pages 2 (discovered_last_page linkMatch - 1)

/-! ## The loader -/

/-- The destination DuckDB database: each table name maps to the rows the
table holds, `none` when the table does not exist. -/
def Store : Type := String → Option (List StargazerRecord)

/-- Pointwise update of one table. -/
def Store.set (st : Store) (t : String) (v : Option (List StargazerRecord)) : Store :=
  fun u => if u = t then v else st u

/-- What one iteration of the retry loop in `load_with_dlt` does.  Each
attempt opens a connection, drops the table, and runs the dlt pipeline; an
exception can occur before the `DROP TABLE` executed (the connect itself
fails, e.g. on the file lock) or after it (the pipeline run fails).
`isLock` records whether the string "lock" occurs in the lowered message of
the exception. -/
inductive AttemptOutcome where
  | ok
  | failBeforeDrop (isLock : Bool)
  | failAfterDrop (isLock : Bool)
deriving DecidableEq, Repr

/-- Constant `max_retries` in `load_with_dlt`. -/
def max_retries : Nat := 12

/-- Exceptions whose message contains "lock": the only retried ones. -/
def AttemptOutcome.isLockFailure : AttemptOutcome → Bool
  | .failBeforeDrop true => true
  | .failAfterDrop true => true
  | _ => false

/-- The outcome of `load_with_dlt`: the final destination state, whether
the call returned (`success = true`) or raised, and the back-off sleeps it
performed, in order. -/
structure LoadResult where
  store : Store
  success : Bool
  sleeps : List Nat

/-- The `for attempt in range(max_retries)` retry loop of `load_with_dlt`.
`outcomes` gives the fate of each attempt, `fuel` the remaining iterations
(initially `max_retries`, so that `attempt + fuel = max_retries` throughout).
A successful attempt drops the table and recreates it holding exactly
`records`.  A failed attempt re-raises immediately unless the exception is a
lock failure and `attempt < max_retries - 1`, in which case the loop sleeps
`5 * (attempt + 1)` seconds and moves to the next attempt; an attempt that
failed after its `DROP TABLE` leaves the table dropped. -/
def load_loop (outcomes : Nat → AttemptOutcome) (records : List StargazerRecord)
    (table : String) : Nat → Nat → Store → LoadResult
  | _, 0, st => ⟨st, false, []⟩
  | attempt, fuel + 1, st =>
    match outcomes attempt with
    | .ok => ⟨((st.set table none).set table (some records)), true, []⟩
    | .failBeforeDrop isLock =>
      if attempt < max_retries - 1 ∧ isLock = true then
        let r := load_loop outcomes records table (attempt + 1) fuel st
        ⟨r.store, r.success, 5 * (attempt + 1) :: r.sleeps⟩
      else ⟨st, false, []⟩
    | .failAfterDrop isLock =>
      let st' := st.set table none
      if attempt < max_retries - 1 ∧ isLock = true then
        let r := load_loop outcomes records table (attempt + 1) fuel st'
        ⟨r.store, r.success, 5 * (attempt + 1) :: r.sleeps⟩
      else ⟨st', false, []⟩

/-- Function `load_with_dlt records repo` on destination state `st`: look the repo up
in `REPO_TABLE_MAP` (a `KeyError`, modelled as `none`, for an unknown repo)
and run the retry loop on that table. -/
def load_with_dlt (outcomes : Nat → AttemptOutcome) (records : List StargazerRecord)
    (repo : String) (st : Store) : Option LoadResult :=
  (REPO_TABLE_MAP repo).map fun table =>
    load_loop outcomes records table 0 max_retries st

/-! ## The orchestrator -/

/-- Function `run_extract_load` over an explicit repo list: `runs` gives the outcome
of `extract_and_load_repo` for each repo (`Except.error` when it raises).
Returns the repos whose extract-and-load was started, in order, and the
uncaught exception, if any, that ended the run.  The loop body has no
exception handling, so an error stops the iteration. -/
def run_repos (runs : String → Except String Unit) :
    List String → List String × Option String
  | [] => ([], none)
  | repo :: rest =>
    match runs repo with
    | .error e => ([repo], some e)
    | .ok _ =>
      let r := run_repos runs rest
      (repo :: r.1, r.2)

/-- Function `run_extract_load`: iterate `REPOS`, calling `extract_and_load_repo` on
each. -/
def run_extract_load (runs : String → Except String Unit) :
    List String × Option String :=
  run_repos runs REPOS

/-- Returns `true` when `extract_and_load_repo` returned without raising. -/
def runOk (r : Except String Unit) : Bool :=
  match r with
  | .ok _ => true
  | .error _ => false

/-! ## Theorems -/

/-- C5: page-count discovery clamps the API-reported last-page value to the
hard cap of 400: a reported value above 400 yields exactly 400, a value of
at most 400 is kept unchanged, and an absent `Link` match defaults the last
page to 1. -/
theorem discovery_clamps_last_page :
    (∀ v : Nat, 400 < v → discovered_last_page (some v) = 400)
    ∧ (∀ v : Nat, v ≤ 400 → discovered_last_page (some v) = v)
    ∧ discovered_last_page none = 1 := by
  refine ⟨fun v hv => ?_, fun v hv => ?_, rfl⟩ <;>
    simp [discovered_last_page, _parse_last_page, MAX_PAGES] <;> omega

/-- Witness for C5 at the concrete reported values 1000 and 3. -/
theorem discovery_clamps_last_page_witness :
    (400 < 1000 ∧ discovered_last_page (some 1000) = 400)
    ∧ (3 ≤ 400 ∧ discovered_last_page (some 3) = 3) :=
  ⟨⟨by decide, discovery_clamps_last_page.1 1000 (by decide)⟩,
   ⟨by decide, discovery_clamps_last_page.2.1 3 (by decide)⟩⟩

/-- The per-repo outcomes refuting C1: extract-and-load of the first
configured repo raises, every other repo would succeed. -/
def runsFirstFails : String → Except String Unit := fun repo =>
  if repo = "dbt-labs/dbt-core" then .error "HTTPError" else .ok ()

/-- C1 counterexample: with the first configured source failing, the run
orchestrator attempts only that source — `apache/airflow` is configured but
its fetch and load is never started, because `run_extract_load` has no
per-source exception handling. -/
theorem run_extract_load_not_isolated :
    "apache/airflow" ∈ REPOS
    ∧ (run_extract_load runsFirstFails).1 = ["dbt-labs/dbt-core"]
    ∧ "apache/airflow" ∉ (run_extract_load runsFirstFails).1 := by
  decide

/-- The sources `run_repos` attempts: the longest all-successful initial
segment of the list, plus the first failing source when there is one. -/
theorem run_repos_attempted (runs : String → Except String Unit) :
    ∀ l : List String,
      (run_repos runs l).1 =
        l.takeWhile (fun repo => runOk (runs repo))
          ++ (l.find? fun repo => !runOk (runs repo)).toList
  | [] => rfl
  | repo :: rest => by
    rw [run_repos]
    cases h : runs repo with
    | error e => simp [runOk, h]
    | ok u => simp [runOk, h, run_repos_attempted runs rest]

/-- C1 amended: the run orchestrator attempts the configured sources in
order only up to and including the first source whose fetch or load raises
a fatal error; a failure of an earlier source prevents the fetch and load
of every later source from being attempted.  (Per-source isolation as the claim
states it does not hold for `run_extract_load`.) -/
theorem run_extract_load_stops_at_first_failure
    (runs : String → Except String Unit) :
    (run_extract_load runs).1 =
      REPOS.takeWhile (fun repo => runOk (runs repo))
        ++ (REPOS.find? fun repo => !runOk (runs repo)).toList :=
  run_repos_attempted runs REPOS

/-- C7: a response with a rate-limit status code (403 or 429) makes the
fetch loop sleep `max(resetTime - now, 0) + 5` seconds and retry the
identical page (the page argument is unchanged and the outcome is exactly
the outcome of the continued loop, so a rate-limit response is never
surfaced as a failure); with a reset header of `now + 30` the sleep is at
least 35 seconds. -/
theorem fetch_page_rate_limited (repo : String) (page : Nat) (now : Int)
    (reset : Option Int) (body : List ApiItem) (status : Nat)
    (rest : List Response) (hs : status = 403 ∨ status = 429) :
    fetch_page_loop repo page now (⟨status, reset, body⟩ :: rest) =
      (rate_limit_wait now reset ::
          (fetch_page_loop repo page (now + rate_limit_wait now reset) rest).1,
        (fetch_page_loop repo page (now + rate_limit_wait now reset) rest).2)
    ∧ (∀ t : Int, reset = some t →
        rate_limit_wait now reset = max (t - now) 0 + 5)
    ∧ (reset = some (now + 30) → 35 ≤ rate_limit_wait now reset) := by
  refine ⟨?_, fun t ht => ?_, fun ht => ?_⟩
  · simp only [fetch_page_loop, hs]
    rcases hs with h | h <;> simp [h]
  · simp [rate_limit_wait, ht]
  · simp [rate_limit_wait, ht]

/-- Witness for C7: a 403 response at time 100 with reset header 130 sleeps
exactly `max (130 - 100) 0 + 5 = 35` seconds and retries. -/
theorem fetch_page_rate_limited_witness :
    (403 = 403 ∨ 403 = 429)
    ∧ fetch_page_loop "octocat/hello" 7 (100 : Int)
        [⟨403, some 130, []⟩] = ([35], none) := by
  refine ⟨Or.inl rfl, ?_⟩
  have h := (fetch_page_rate_limited "octocat/hello" 7 100 (some 130) [] 403
    [] (Or.inl rfl)).1
  rw [h]; rfl

/-- When every page fetch resolves to its record list (no `HTTPError`), the
inner loop of `get_stargazers` returns, in ascending page order, the
records of the pages up to but not including the first empty one. -/
theorem get_stargazers_loop_char (pages : Nat → FetchResult)
    (recs : Nat → List StargazerRecord)
    (h : ∀ p, pages p = FetchResult.ok p (recs p)) :
    ∀ n start,
      get_stargazers_loop pages start n =
        .ok ((((List.range' start n).takeWhile
            fun p => !(recs p).isEmpty).map recs).flatten)
  | 0, start => by simp [get_stargazers_loop]
  | n + 1, start => by
    rw [get_stargazers_loop, h start, List.range'_succ]
    cases he : (recs start).isEmpty with
    | true => simp [he]
    | false => simp [he, get_stargazers_loop_char pages recs h n (start + 1)]

/-- When every page fetch resolves to its record list and at least one page
exists, `get_stargazers` succeeds with the page-ascending concatenation of
the per-page record lists, cut at the first empty page. -/
theorem get_stargazers_char (pages : Nat → FetchResult)
    (recs : Nat → List StargazerRecord) (linkMatch : Option Nat)
    (h : ∀ p, pages p = FetchResult.ok p (recs p))
    (hlp : 1 ≤ discovered_last_page linkMatch) :
    get_stargazers pages linkMatch =
      .ok ((((List.range' 1 (discovered_last_page linkMatch)).takeWhile
          fun p => !(recs p).isEmpty).map recs).flatten) := by
  obtain ⟨m, hm⟩ : ∃ m, discovered_last_page linkMatch = m + 1 :=
    ⟨discovered_last_page linkMatch - 1, by omega⟩
  rw [get_stargazers, h 1, hm, List.range'_succ]
  cases he : (recs 1).isEmpty with
  | true => simp [he]
  | false =>
    simp only [Nat.add_sub_cancel, show (1 : Nat) + 1 = 2 from rfl]
    rw [get_stargazers_loop_char pages recs h m 2]
    simp [he]

/-- C2: the record sequence `get_stargazers` assembles does not depend on
any fetch timing: it is a function of the per-page fetch results alone, and
(whenever every page fetch resolves and the discovered last page is at
least 1) it equals the concatenation of the per-page record lists in
ascending page-number order — page 1 first, then page 2, and so on up to
the last fetched page (the cut at the first empty page). -/
theorem get_stargazers_deterministic_page_ascending
    (pages : Nat → FetchResult) (recs : Nat → List StargazerRecord)
    (linkMatch : Option Nat)
    (h : ∀ p, pages p = FetchResult.ok p (recs p))
    (hlink : 1 ≤ _parse_last_page linkMatch) :
    get_stargazers pages linkMatch =
      .ok ((((List.range' 1 (discovered_last_page linkMatch)).takeWhile
          fun p => !(recs p).isEmpty).map recs).flatten) :=
  get_stargazers_char pages recs linkMatch h
    (by simp only [discovered_last_page, MAX_PAGES]; omega)

/-- The per-page record lists used by the C2 witness: three non-empty pages. -/
def recsW (p : Nat) : List StargazerRecord :=
  if p ≤ 3 then
    [{ user_login := "user", user_id := (p : Int), repo := "apache/airflow",
       starred_at := none, avatar_url := "", html_url := "",
       extracted_at := 0 }]
  else []

/-- The per-page fetch outcomes used by the C2 witness. -/
def pagesW (p : Nat) : FetchResult := .ok p (recsW p)

/-- Witness for C2: with the `Link` header naming last page 3 and pages
1..3 each holding one record, the assembled output is those three records
in page order. -/
theorem get_stargazers_deterministic_page_ascending_witness :
    pagesW 2 = FetchResult.ok 2 (recsW 2)
    ∧ 1 ≤ _parse_last_page (some 3)
    ∧ get_stargazers pagesW (some 3) =
        .ok [{ user_login := "user", user_id := 1, repo := "apache/airflow",
               starred_at := none, avatar_url := "", html_url := "",
               extracted_at := 0 },
             { user_login := "user", user_id := 2, repo := "apache/airflow",
               starred_at := none, avatar_url := "", html_url := "",
               extracted_at := 0 },
             { user_login := "user", user_id := 3, repo := "apache/airflow",
               starred_at := none, avatar_url := "", html_url := "",
               extracted_at := 0 }] := by
  refine ⟨rfl, by decide, ?_⟩
  rw [get_stargazers_deterministic_page_ascending pagesW recsW (some 3)
    (fun p => rfl) (by decide)]
  rfl

/-- A successful run of the retry loop leaves the table holding exactly the
given records and every other table as it was on entry. -/
theorem load_loop_success_char (outcomes : Nat → AttemptOutcome)
    (records : List StargazerRecord) (table : String) :
    ∀ fuel attempt st,
      (load_loop outcomes records table attempt fuel st).success = true →
      (load_loop outcomes records table attempt fuel st).store table = some records
      ∧ ∀ t, t ≠ table →
          (load_loop outcomes records table attempt fuel st).store t = st t
  | 0, attempt, st => by simp [load_loop]
  | fuel + 1, attempt, st => by
    cases ho : outcomes attempt with
    | ok =>
      intro _
      refine ⟨by simp [load_loop, ho, Store.set], fun t ht => ?_⟩
      simp [load_loop, ho, Store.set, ht]
    | failBeforeDrop isLock =>
      by_cases hc : attempt < max_retries - 1 ∧ isLock = true
      · simp only [load_loop, ho, if_pos hc]
        exact load_loop_success_char outcomes records table fuel (attempt + 1) st
      · simp [load_loop, ho, hc]
    | failAfterDrop isLock =>
      by_cases hc : attempt < max_retries - 1 ∧ isLock = true
      · simp only [load_loop, ho, if_pos hc]
        intro hs
        obtain ⟨h1, h2⟩ := load_loop_success_char outcomes records table fuel
          (attempt + 1) (st.set table none) hs
        refine ⟨h1, fun t ht => ?_⟩
        rw [h2 t ht]
        simp [Store.set, ht]
      · simp [load_loop, ho, hc]

/-- The five destination tables are pairwise distinct: the table dictionary
is injective on the repos it knows. -/
theorem REPO_TABLE_MAP_inj : ∀ r1 r2 t, REPO_TABLE_MAP r1 = some t →
    REPO_TABLE_MAP r2 = some t → r1 = r2 := by
  intro r1 r2 t h1 h2
  unfold REPO_TABLE_MAP at h1 h2
  split_ifs at h1 h2 <;> simp_all <;>
    exact absurd (h1.trans h2.symm) (by decide)

/-- C3: after a successful `load_with_dlt` call the destination holds
exactly the given records in the table of the loaded source and nothing
else for that source (any rows the table held before are gone), while every
other table — in particular the table of every other configured source — is
unchanged. -/
theorem load_full_refresh_scoped (outcomes : Nat → AttemptOutcome)
    (records : List StargazerRecord) (repo table : String) (st : Store)
    (r : LoadResult)
    (hmap : REPO_TABLE_MAP repo = some table)
    (hload : load_with_dlt outcomes records repo st = some r)
    (hsucc : r.success = true) :
    r.store table = some records
    ∧ (∀ t, t ≠ table → r.store t = st t)
    ∧ (∀ repo2 table2, repo2 ≠ repo → REPO_TABLE_MAP repo2 = some table2 →
        r.store table2 = st table2) := by
  have hr : r = load_loop outcomes records table 0 max_retries st := by
    simp only [load_with_dlt, hmap, Option.map_some'] at hload
    exact (Option.some.inj hload).symm
  subst hr
  obtain ⟨h1, h2⟩ :=
    load_loop_success_char outcomes records table max_retries 0 st hsucc
  refine ⟨h1, h2, fun repo2 table2 hne hmap2 => ?_⟩
  refine h2 table2 fun he => hne ?_
  exact REPO_TABLE_MAP_inj repo2 repo table (he ▸ hmap2) hmap

/-- A record used by the loader witnesses. -/
def recW : StargazerRecord :=
  { user_login := "user", user_id := 42, repo := "apache/airflow",
    starred_at := some 1700000000, avatar_url := "", html_url := "",
    extracted_at := 1700000100 }

/-- A destination state used by the loader witnesses: the airflow table
holds one stale row, the dbt-core table holds one row, nothing else exists. -/
def stW : Store := fun t =>
  if t = "raw_airflow" then some [recW]
  else if t = "raw_dbt_core" then some [recW]
  else none

/-- The result of loading `[recW, recW]` for `apache/airflow` into `stW`
with every attempt succeeding. -/
def rW : LoadResult :=
  load_loop (fun _ => .ok) [recW, recW] "raw_airflow" 0 max_retries stW

/-- Witness for C3: loading two records for `apache/airflow` replaces the
stale airflow row with exactly those records and leaves the dbt-core table
untouched. -/
theorem load_full_refresh_scoped_witness :
    REPO_TABLE_MAP "apache/airflow" = some "raw_airflow"
    ∧ load_with_dlt (fun _ => .ok) [recW, recW] "apache/airflow" stW = some rW
    ∧ rW.success = true
    ∧ rW.store "raw_airflow" = some [recW, recW]
    ∧ rW.store "raw_dbt_core" = stW "raw_dbt_core" := by
  have h := load_full_refresh_scoped (fun _ => .ok) [recW, recW]
    "apache/airflow" "raw_airflow" stW rW rfl rfl rfl
  exact ⟨rfl, rfl, rfl, h.1, h.2.2 "dbt-labs/dbt-core" "raw_dbt_core"
    (by decide) rfl⟩

/-- C4: the load is idempotent — if loading the same record set for the
same source twice in succession succeeds both times, the destination after
the second call is pointwise identical to the destination after the first,
the table of the source holds exactly the record set, and its row count is
the record count (no duplication). -/
theorem load_idempotent (o1 o2 : Nat → AttemptOutcome)
    (records : List StargazerRecord) (repo table : String) (st : Store)
    (r1 r2 : LoadResult)
    (hmap : REPO_TABLE_MAP repo = some table)
    (h1 : load_with_dlt o1 records repo st = some r1)
    (hs1 : r1.success = true)
    (h2 : load_with_dlt o2 records repo r1.store = some r2)
    (hs2 : r2.success = true) :
    (∀ t, r2.store t = r1.store t)
    ∧ r2.store table = some records
    ∧ (r2.store table).map List.length = some records.length := by
  have hr1 : r1 = load_loop o1 records table 0 max_retries st := by
    simp only [load_with_dlt, hmap, Option.map_some'] at h1
    exact (Option.some.inj h1).symm
  have hr2 : r2 = load_loop o2 records table 0 max_retries r1.store := by
    simp only [load_with_dlt, hmap, Option.map_some'] at h2
    exact (Option.some.inj h2).symm
  subst hr2
  obtain ⟨ha1, ha2⟩ := load_loop_success_char o1 records table max_retries 0 st
    (hr1 ▸ hs1)
  obtain ⟨hb1, hb2⟩ := load_loop_success_char o2 records table max_retries 0
    r1.store hs2
  refine ⟨fun t => ?_, hb1, by rw [hb1]; rfl⟩
  by_cases ht : t = table
  · subst ht
    rw [hb1, hr1, ha1]
  · exact hb2 t ht

/-- The result of re-loading `[recW, recW]` for `apache/airflow` on top of
the state `rW` left, with every attempt succeeding. -/
def rW2 : LoadResult :=
  load_loop (fun _ => .ok) [recW, recW] "raw_airflow" 0 max_retries rW.store

/-- Witness for C4: loading `[recW, recW]` for `apache/airflow` twice in
succession leaves the airflow table exactly as the first load did — two
rows, no duplication — and the dbt-core table untouched. -/
theorem load_idempotent_witness :
    load_with_dlt (fun _ => .ok) [recW, recW] "apache/airflow" stW = some rW
    ∧ rW.success = true
    ∧ load_with_dlt (fun _ => .ok) [recW, recW] "apache/airflow" rW.store = some rW2
    ∧ rW2.success = true
    ∧ rW2.store "raw_airflow" = rW.store "raw_airflow"
    ∧ rW2.store "raw_airflow" = some [recW, recW]
    ∧ (rW2.store "raw_airflow").map List.length = some 2 := by
  have h := load_idempotent (fun _ => .ok) (fun _ => .ok) [recW, recW]
    "apache/airflow" "raw_airflow" stW rW rW2 rfl rfl rfl rfl rfl
  exact ⟨rfl, rfl, rfl, rfl, h.1 "raw_airflow", h.2.1, h.2.2⟩

/-- C6: when page 1 of a source returns zero records the pipeline
short-circuits — the extraction result is the empty list and no page beyond
page 1 is ever requested — and a subsequent successful load of the empty
record list leaves the table of that source holding zero rows (any
previously stored rows for it are gone) with every other table unchanged. -/
theorem zero_data_short_circuit (pages : Nat → FetchResult)
    (linkMatch : Option Nat) (h1 : pages 1 = FetchResult.ok 1 []) :
    get_stargazers pages linkMatch = .ok []
    ∧ get_stargazers_trace pages linkMatch = [1]
    ∧ (∀ (outcomes : Nat → AttemptOutcome) (repo table : String)
        (st : Store) (r : LoadResult),
        REPO_TABLE_MAP repo = some table →
        load_with_dlt outcomes [] repo st = some r → r.success = true →
        r.store table = some [] ∧ ∀ t, t ≠ table → r.store t = st t) := by
  refine ⟨?_, ?_, ?_⟩
  · simp [get_stargazers, h1]
  · simp [get_stargazers_trace, h1]
  · intro outcomes repo table st r hmap hload hsucc
    have hr : r = load_loop outcomes [] table 0 max_retries st := by
      simp only [load_with_dlt, hmap, Option.map_some'] at hload
      exact (Option.some.inj hload).symm
    subst hr
    exact load_loop_success_char outcomes [] table max_retries 0 st hsucc

/-- The per-page fetch outcomes for the C6 witness: every page, page 1
included, has zero records. -/
def pages6W : Nat → FetchResult := fun p => .ok p []

/-- The destination for the C6 witness: the airflow table holds one stale
row. -/
def st6W : Store := fun t =>
  if t = "raw_airflow" then
    some [{ user_login := "old", user_id := 1, repo := "apache/airflow",
            starred_at := none, avatar_url := "", html_url := "",
            extracted_at := 0 }]
  else none

/-- The load of zero rows for the C6 witness. -/
def r6W : LoadResult :=
  load_loop (fun _ => .ok) [] "raw_airflow" 0 max_retries st6W

/-- Witness for C6: page 1 empty, so extraction yields `[]`, only page 1 is
requested, and the subsequent load clears the stale airflow row down to an
empty table while leaving other tables alone. -/
theorem zero_data_short_circuit_witness :
    pages6W 1 = FetchResult.ok 1 []
    ∧ get_stargazers pages6W (some 5) = .ok []
    ∧ get_stargazers_trace pages6W (some 5) = [1]
    ∧ st6W "raw_airflow" ≠ some []
    ∧ r6W.store "raw_airflow" = some []
    ∧ r6W.store "raw_dbt_core" = st6W "raw_dbt_core" := by
  have h := zero_data_short_circuit pages6W (some 5) rfl
  have hl := h.2.2 (fun _ => .ok) "apache/airflow" "raw_airflow" st6W r6W
    rfl rfl rfl
  exact ⟨rfl, h.1, h.2.1, by decide, hl.1, hl.2 "raw_dbt_core" (by decide)⟩

/-- One-step unfolding of the retry loop at positive fuel. -/
theorem load_loop_succ (outcomes : Nat → AttemptOutcome)
    (records : List StargazerRecord) (table : String)
    (attempt fuel : Nat) (st : Store) :
    load_loop outcomes records table attempt (fuel + 1) st =
      match outcomes attempt with
      | .ok => ⟨(st.set table none).set table (some records), true, []⟩
      | .failBeforeDrop isLock =>
        if attempt < max_retries - 1 ∧ isLock = true then
          ⟨(load_loop outcomes records table (attempt + 1) fuel st).store,
           (load_loop outcomes records table (attempt + 1) fuel st).success,
           5 * (attempt + 1) ::
             (load_loop outcomes records table (attempt + 1) fuel st).sleeps⟩
        else ⟨st, false, []⟩
      | .failAfterDrop isLock =>
        if attempt < max_retries - 1 ∧ isLock = true then
          ⟨(load_loop outcomes records table (attempt + 1) fuel
              (st.set table none)).store,
           (load_loop outcomes records table (attempt + 1) fuel
              (st.set table none)).success,
           5 * (attempt + 1) ::
             (load_loop outcomes records table (attempt + 1) fuel
                (st.set table none)).sleeps⟩
        else ⟨st.set table none, false, []⟩ := rfl

/-- A retried lock failure that occurred before the `DROP TABLE`: sleep and
move to the next attempt on the unchanged store. -/
theorem load_loop_retry_before (outcomes : Nat → AttemptOutcome)
    (records : List StargazerRecord) (table : String)
    (attempt fuel : Nat) (st : Store) (isLock : Bool)
    (ho : outcomes attempt = .failBeforeDrop isLock)
    (hc : attempt < max_retries - 1 ∧ isLock = true) :
    load_loop outcomes records table attempt (fuel + 1) st =
      ⟨(load_loop outcomes records table (attempt + 1) fuel st).store,
       (load_loop outcomes records table (attempt + 1) fuel st).success,
       5 * (attempt + 1) ::
         (load_loop outcomes records table (attempt + 1) fuel st).sleeps⟩ := by
  simp only [load_loop_succ, ho]
  rw [if_pos hc]

/-- A retried lock failure that occurred after the `DROP TABLE`: sleep and
move to the next attempt with the table dropped. -/
theorem load_loop_retry_after (outcomes : Nat → AttemptOutcome)
    (records : List StargazerRecord) (table : String)
    (attempt fuel : Nat) (st : Store) (isLock : Bool)
    (ho : outcomes attempt = .failAfterDrop isLock)
    (hc : attempt < max_retries - 1 ∧ isLock = true) :
    load_loop outcomes records table attempt (fuel + 1) st =
      ⟨(load_loop outcomes records table (attempt + 1) fuel
          (st.set table none)).store,
       (load_loop outcomes records table (attempt + 1) fuel
          (st.set table none)).success,
       5 * (attempt + 1) ::
         (load_loop outcomes records table (attempt + 1) fuel
            (st.set table none)).sleeps⟩ := by
  simp only [load_loop_succ, ho]
  rw [if_pos hc]

/-- A failure before the `DROP TABLE` that is not retried re-raises with the
store unchanged. -/
theorem load_loop_raise_before (outcomes : Nat → AttemptOutcome)
    (records : List StargazerRecord) (table : String)
    (attempt fuel : Nat) (st : Store) (isLock : Bool)
    (ho : outcomes attempt = .failBeforeDrop isLock)
    (hc : ¬(attempt < max_retries - 1 ∧ isLock = true)) :
    load_loop outcomes records table attempt (fuel + 1) st = ⟨st, false, []⟩ := by
  simp only [load_loop_succ, ho]
  rw [if_neg hc]

/-- A failure after the `DROP TABLE` that is not retried re-raises with the
table dropped. -/
theorem load_loop_raise_after (outcomes : Nat → AttemptOutcome)
    (records : List StargazerRecord) (table : String)
    (attempt fuel : Nat) (st : Store) (isLock : Bool)
    (ho : outcomes attempt = .failAfterDrop isLock)
    (hc : ¬(attempt < max_retries - 1 ∧ isLock = true)) :
    load_loop outcomes records table attempt (fuel + 1) st =
      ⟨st.set table none, false, []⟩ := by
  simp only [load_loop_succ, ho]
  rw [if_neg hc]

/-- A successful attempt: drop the table, then write the records. -/
theorem load_loop_ok_step (outcomes : Nat → AttemptOutcome)
    (records : List StargazerRecord) (table : String)
    (attempt fuel : Nat) (st : Store)
    (ho : outcomes attempt = .ok) :
    load_loop outcomes records table attempt (fuel + 1) st =
      ⟨(st.set table none).set table (some records), true, []⟩ := by
  simp only [load_loop_succ, ho]

/-- When every attempt up to the ceiling fails with lock contention, the
retry loop sleeps `5 * (attempt + 1)` after each attempt but the last and
then raises: from attempt `attempt` with `fuel` attempts left it fails,
having slept `5 * (attempt + 1), ..., 5 * (max_retries - 1)`. -/
theorem load_loop_all_lock_fails (outcomes : Nat → AttemptOutcome)
    (records : List StargazerRecord) (table : String)
    (hlock : ∀ a, a < max_retries → (outcomes a).isLockFailure = true) :
    ∀ fuel attempt st, attempt + fuel = max_retries → 1 ≤ fuel →
      (load_loop outcomes records table attempt fuel st).success = false
      ∧ (load_loop outcomes records table attempt fuel st).sleeps =
          (List.range' (attempt + 1) (fuel - 1)).map fun a => 5 * a
  | 0, attempt, st => by omega
  | 1, attempt, st => by
    intro hsum _
    have hm : max_retries = 12 := rfl
    have ha : attempt = 11 := by omega
    subst ha
    have hl := hlock 11 (by omega)
    have hc : ¬((11 : Nat) < max_retries - 1 ∧ True) := by simp [max_retries]
    cases ho : outcomes 11 with
    | ok => rw [ho] at hl; simp [AttemptOutcome.isLockFailure] at hl
    | failBeforeDrop isLock =>
      rw [load_loop_raise_before outcomes records table 11 0 st isLock ho
        (by simp [max_retries])]
      simp
    | failAfterDrop isLock =>
      rw [load_loop_raise_after outcomes records table 11 0 st isLock ho
        (by simp [max_retries])]
      simp
  | fuel + 2, attempt, st => by
    intro hsum _
    have hm : max_retries = 12 := rfl
    have hlt : attempt < max_retries - 1 := by omega
    have hl := hlock attempt (by omega)
    have hrange : (fuel + 2 - 1 : Nat) = fuel + 1 := rfl
    cases ho : outcomes attempt with
    | ok => rw [ho] at hl; simp [AttemptOutcome.isLockFailure] at hl
    | failBeforeDrop isLock =>
      rw [ho] at hl
      cases isLock with
      | false => simp [AttemptOutcome.isLockFailure] at hl
      | true =>
        have ih := load_loop_all_lock_fails outcomes records table hlock
          (fuel + 1) (attempt + 1) st (by omega) (by omega)
        rw [load_loop_retry_before outcomes records table attempt (fuel + 1)
          st true ho ⟨hlt, rfl⟩]
        refine ⟨ih.1, ?_⟩
        show 5 * (attempt + 1) :: _ = _
        rw [ih.2, hrange, List.range'_succ]
        simp
    | failAfterDrop isLock =>
      rw [ho] at hl
      cases isLock with
      | false => simp [AttemptOutcome.isLockFailure] at hl
      | true =>
        have ih := load_loop_all_lock_fails outcomes records table hlock
          (fuel + 1) (attempt + 1) (st.set table none) (by omega) (by omega)
        rw [load_loop_retry_after outcomes records table attempt (fuel + 1)
          st true ho ⟨hlt, rfl⟩]
        refine ⟨ih.1, ?_⟩
        show 5 * (attempt + 1) :: _ = _
        rw [ih.2, hrange, List.range'_succ]
        simp

/-- A run of `k` lock failures followed by a successful attempt: the loop
succeeds, having slept `5 * (attempt + 1), ..., 5 * (attempt + k)`. -/
theorem load_loop_lock_run_ok (outcomes : Nat → AttemptOutcome)
    (records : List StargazerRecord) (table : String) :
    ∀ k attempt fuel st, attempt + fuel = max_retries → k < fuel →
      (∀ a, a < k → (outcomes (attempt + a)).isLockFailure = true) →
      outcomes (attempt + k) = .ok →
      (load_loop outcomes records table attempt fuel st).success = true
      ∧ (load_loop outcomes records table attempt fuel st).sleeps =
          (List.range' (attempt + 1) k).map fun a => 5 * a
  | 0, attempt, fuel, st => by
    intro hsum hk hlock hok
    obtain ⟨f, rfl⟩ : ∃ f, fuel = f + 1 := ⟨fuel - 1, by omega⟩
    rw [Nat.add_zero] at hok
    rw [load_loop_ok_step outcomes records table attempt f st hok]
    simp
  | k + 1, attempt, fuel, st => by
    intro hsum hk hlock hok
    obtain ⟨f, rfl⟩ : ∃ f, fuel = f + 1 := ⟨fuel - 1, by omega⟩
    have hm : max_retries = 12 := rfl
    have hlt : attempt < max_retries - 1 := by omega
    have hl := hlock 0 (by omega)
    rw [Nat.add_zero] at hl
    have hlock2 : ∀ a, a < k → (outcomes (attempt + 1 + a)).isLockFailure = true := by
      intro a ha
      have := hlock (a + 1) (by omega)
      rwa [show attempt + (a + 1) = attempt + 1 + a by omega] at this
    have hok2 : outcomes (attempt + 1 + k) = .ok := by
      rwa [show attempt + 1 + k = attempt + (k + 1) by omega]
    cases ho : outcomes attempt with
    | ok => rw [ho] at hl; simp [AttemptOutcome.isLockFailure] at hl
    | failBeforeDrop isLock =>
      rw [ho] at hl
      cases isLock with
      | false => simp [AttemptOutcome.isLockFailure] at hl
      | true =>
        have ih := load_loop_lock_run_ok outcomes records table k
          (attempt + 1) f st (by omega) (by omega) hlock2 hok2
        rw [load_loop_retry_before outcomes records table attempt f st true
          ho ⟨hlt, rfl⟩]
        refine ⟨ih.1, ?_⟩
        show 5 * (attempt + 1) :: _ = _
        rw [ih.2, List.range'_succ]
        simp
    | failAfterDrop isLock =>
      rw [ho] at hl
      cases isLock with
      | false => simp [AttemptOutcome.isLockFailure] at hl
      | true =>
        have ih := load_loop_lock_run_ok outcomes records table k
          (attempt + 1) f (st.set table none) (by omega) (by omega) hlock2 hok2
        rw [load_loop_retry_after outcomes records table attempt f st true
          ho ⟨hlt, rfl⟩]
        refine ⟨ih.1, ?_⟩
        show 5 * (attempt + 1) :: _ = _
        rw [ih.2, List.range'_succ]
        simp

/-- A run of `j` lock failures followed by a failure that is not lock
contention: the loop raises at once at attempt `j`, having slept only for
the `j` lock failures before it. -/
theorem load_loop_lock_run_fatal (outcomes : Nat → AttemptOutcome)
    (records : List StargazerRecord) (table : String) :
    ∀ j attempt fuel st, attempt + fuel = max_retries → j < fuel →
      (∀ a, a < j → (outcomes (attempt + a)).isLockFailure = true) →
      (outcomes (attempt + j) = .failBeforeDrop false
        ∨ outcomes (attempt + j) = .failAfterDrop false) →
      (load_loop outcomes records table attempt fuel st).success = false
      ∧ (load_loop outcomes records table attempt fuel st).sleeps =
          (List.range' (attempt + 1) j).map fun a => 5 * a
  | 0, attempt, fuel, st => by
    intro hsum hj hlock hfatal
    obtain ⟨f, rfl⟩ : ∃ f, fuel = f + 1 := ⟨fuel - 1, by omega⟩
    rw [Nat.add_zero] at hfatal
    rcases hfatal with h | h
    · rw [load_loop_raise_before outcomes records table attempt f st false h
        (by simp)]
      simp
    · rw [load_loop_raise_after outcomes records table attempt f st false h
        (by simp)]
      simp
  | j + 1, attempt, fuel, st => by
    intro hsum hj hlock hfatal
    obtain ⟨f, rfl⟩ : ∃ f, fuel = f + 1 := ⟨fuel - 1, by omega⟩
    have hm : max_retries = 12 := rfl
    have hlt : attempt < max_retries - 1 := by omega
    have hl := hlock 0 (by omega)
    rw [Nat.add_zero] at hl
    have hlock2 : ∀ a, a < j → (outcomes (attempt + 1 + a)).isLockFailure = true := by
      intro a ha
      have := hlock (a + 1) (by omega)
      rwa [show attempt + (a + 1) = attempt + 1 + a by omega] at this
    have hfatal2 : outcomes (attempt + 1 + j) = .failBeforeDrop false
        ∨ outcomes (attempt + 1 + j) = .failAfterDrop false := by
      rwa [show attempt + 1 + j = attempt + (j + 1) by omega]
    cases ho : outcomes attempt with
    | ok => rw [ho] at hl; simp [AttemptOutcome.isLockFailure] at hl
    | failBeforeDrop isLock =>
      rw [ho] at hl
      cases isLock with
      | false => simp [AttemptOutcome.isLockFailure] at hl
      | true =>
        have ih := load_loop_lock_run_fatal outcomes records table j
          (attempt + 1) f st (by omega) (by omega) hlock2 hfatal2
        rw [load_loop_retry_before outcomes records table attempt f st true
          ho ⟨hlt, rfl⟩]
        refine ⟨ih.1, ?_⟩
        show 5 * (attempt + 1) :: _ = _
        rw [ih.2, List.range'_succ]
        simp
    | failAfterDrop isLock =>
      rw [ho] at hl
      cases isLock with
      | false => simp [AttemptOutcome.isLockFailure] at hl
      | true =>
        have ih := load_loop_lock_run_fatal outcomes records table j
          (attempt + 1) f (st.set table none) (by omega) (by omega) hlock2 hfatal2
        rw [load_loop_retry_after outcomes records table attempt f st true
          ho ⟨hlt, rfl⟩]
        refine ⟨ih.1, ?_⟩
        show 5 * (attempt + 1) :: _ = _
        rw [ih.2, List.range'_succ]
        simp

/-- C9: the load retries write-lock contention with linearly increasing
back-off (`5 * attempt` seconds after the attempt numbered `attempt`,
counting from 1) up to the fixed ceiling of `max_retries = 12` attempts: a
run of lock failures followed by a success succeeds after those sleeps;
lock failures on every attempt up to the ceiling make the call raise; and a
failure that is not lock contention makes the call raise at once, with no
further attempts and no sleep for it. -/
theorem load_lock_retry_policy (outcomes : Nat → AttemptOutcome)
    (records : List StargazerRecord) (repo table : String) (st : Store)
    (r : LoadResult)
    (hmap : REPO_TABLE_MAP repo = some table)
    (hload : load_with_dlt outcomes records repo st = some r) :
    ((∀ a, a < max_retries → (outcomes a).isLockFailure = true) →
        r.success = false
        ∧ r.sleeps = (List.range' 1 (max_retries - 1)).map fun a => 5 * a)
    ∧ (∀ k, k < max_retries →
        (∀ a, a < k → (outcomes a).isLockFailure = true) →
        outcomes k = .ok →
        r.success = true
        ∧ r.sleeps = (List.range' 1 k).map fun a => 5 * a)
    ∧ (∀ j, j < max_retries →
        (∀ a, a < j → (outcomes a).isLockFailure = true) →
        (outcomes j = .failBeforeDrop false ∨ outcomes j = .failAfterDrop false) →
        r.success = false
        ∧ r.sleeps = (List.range' 1 j).map fun a => 5 * a) := by
  have hr : r = load_loop outcomes records table 0 max_retries st := by
    simp only [load_with_dlt, hmap, Option.map_some'] at hload
    exact (Option.some.inj hload).symm
  subst hr
  refine ⟨fun hlock => ?_, fun k hk hlock hok => ?_, fun j hj hlock hfatal => ?_⟩
  · simpa using
      load_loop_all_lock_fails outcomes records table hlock max_retries 0 st
        rfl (by decide)
  · simpa using
      load_loop_lock_run_ok outcomes records table k 0 max_retries st rfl hk
        (fun a ha => by simpa using hlock a ha) (by simpa using hok)
  · simpa using
      load_loop_lock_run_fatal outcomes records table j 0 max_retries st rfl hj
        (fun a ha => by simpa using hlock a ha) (by simpa using hfatal)

/-- The attempt outcomes for the C9 witness: lock contention (after the
drop) on attempts 0 and 1, success on attempt 2. -/
def outcomes9W : Nat → AttemptOutcome := fun a =>
  if a < 2 then .failAfterDrop true else .ok

/-- The load result for the C9 witness. -/
def r9W : LoadResult :=
  load_loop outcomes9W [recW] "raw_airflow" 0 max_retries stW

/-- Witness for C9: two lock-contention failures then a success load fully,
after back-off sleeps of 5 and then 10 seconds. -/
theorem load_lock_retry_policy_witness :
    outcomes9W 2 = .ok
    ∧ r9W.success = true
    ∧ r9W.sleeps = [5, 10] := by
  have h := (load_lock_retry_policy outcomes9W [recW] "apache/airflow"
    "raw_airflow" stW r9W rfl rfl).2.1 2 (by decide)
    (fun a ha => by interval_cases a <;> decide) rfl
  exact ⟨rfl, h.1, by rw [h.2]; rfl⟩

/-- Once the table has been dropped, a run of the retry loop that
ultimately fails leaves it dropped: every later attempt only drops it again
or fails, never restores the old rows. -/
theorem load_loop_fail_keeps_dropped (outcomes : Nat → AttemptOutcome)
    (records : List StargazerRecord) (table : String) :
    ∀ fuel attempt st, st table = none →
      (load_loop outcomes records table attempt fuel st).success = false →
      (load_loop outcomes records table attempt fuel st).store table = none
  | 0, attempt, st => fun hst _ => hst
  | fuel + 1, attempt, st => by
    intro hst hfail
    cases ho : outcomes attempt with
    | ok =>
      rw [load_loop_ok_step outcomes records table attempt fuel st ho] at hfail
      exact absurd hfail (by simp)
    | failBeforeDrop isLock =>
      by_cases hc : attempt < max_retries - 1 ∧ isLock = true
      · rw [load_loop_retry_before outcomes records table attempt fuel st
          isLock ho hc] at hfail ⊢
        exact load_loop_fail_keeps_dropped outcomes records table fuel
          (attempt + 1) st hst hfail
      · rw [load_loop_raise_before outcomes records table attempt fuel st
          isLock ho hc]
        exact hst
    | failAfterDrop isLock =>
      by_cases hc : attempt < max_retries - 1 ∧ isLock = true
      · rw [load_loop_retry_after outcomes records table attempt fuel st
          isLock ho hc] at hfail ⊢
        exact load_loop_fail_keeps_dropped outcomes records table fuel
          (attempt + 1) (st.set table none) (by simp [Store.set]) hfail
      · rw [load_loop_raise_after outcomes records table attempt fuel st
          isLock ho hc]
        simp [Store.set]

/-- C10: the load is not atomic on error.  Each attempt drops the table
first and only then writes, so when the first attempt got as far as its
`DROP TABLE` (it failed after the drop) and the call ultimately raises, the
rows previously stored for the source are already gone: the table does not
exist in the final state, which therefore differs from the pre-call state
whenever that state held rows for the source. -/
theorem load_not_atomic_on_failure (outcomes : Nat → AttemptOutcome)
    (records : List StargazerRecord) (repo table : String) (st : Store)
    (r : LoadResult) (b : Bool)
    (hmap : REPO_TABLE_MAP repo = some table)
    (hload : load_with_dlt outcomes records repo st = some r)
    (h0 : outcomes 0 = .failAfterDrop b)
    (hfail : r.success = false) :
    r.store table = none
    ∧ ∀ prior, st table = some prior → r.store table ≠ st table := by
  have hr : r = load_loop outcomes records table 0 max_retries st := by
    simp only [load_with_dlt, hmap, Option.map_some'] at hload
    exact (Option.some.inj hload).symm
  subst hr
  have hnone :
      (load_loop outcomes records table 0 max_retries st).store table = none := by
    rw [show max_retries = 11 + 1 from rfl] at hfail ⊢
    by_cases hc : (0 : Nat) < max_retries - 1 ∧ b = true
    · rw [load_loop_retry_after outcomes records table 0 11 st b h0 hc]
        at hfail ⊢
      exact load_loop_fail_keeps_dropped outcomes records table 11 1
        (st.set table none) (by simp [Store.set]) hfail
    · rw [load_loop_raise_after outcomes records table 0 11 st b h0 hc]
      simp [Store.set]
  exact ⟨hnone, fun prior hp => by rw [hnone, hp]; simp⟩

/-- The destination for the C10 witness: the airflow table holds one row. -/
def st10W : Store := fun t => if t = "raw_airflow" then some [recW] else none

/-- The load result for the C10 witness: the only attempt fails after its
`DROP TABLE` with an error that is not lock contention. -/
def r10W : LoadResult :=
  load_loop (fun _ => .failAfterDrop false) [recW] "raw_airflow" 0
    max_retries st10W

/-- Witness for C10: the failing load reports failure, yet the previously
stored airflow row is gone — the table no longer exists. -/
theorem load_not_atomic_on_failure_witness :
    st10W "raw_airflow" = some [recW]
    ∧ r10W.success = false
    ∧ r10W.store "raw_airflow" = none
    ∧ r10W.store "raw_airflow" ≠ st10W "raw_airflow" := by
  have h := load_not_atomic_on_failure (fun _ => .failAfterDrop false) [recW]
    "apache/airflow" "raw_airflow" st10W r10W false rfl rfl rfl rfl
  exact ⟨rfl, rfl, h.1, h.2 [recW] rfl⟩

/-- C8: a response carrying the hard-cap status code 422 makes the fetcher
return the capped/empty marker `(page, [])` instead of raising; and when
every page fetch resolves without `HTTPError` (capped pages resolving to
zero records), the source pipeline succeeds — the capped page contributes
zero records and merely ends the page-ascending assembly early, it is not a
failure. -/
theorem hard_cap_is_benign :
    (∀ (repo : String) (page : Nat) (now : Int) (reset : Option Int)
        (body : List ApiItem) (rest : List Response),
      fetch_page_loop repo page now (⟨422, reset, body⟩ :: rest) =
        ([], some (.ok page [])))
    ∧ (∀ (pages : Nat → FetchResult) (recs : Nat → List StargazerRecord)
        (linkMatch : Option Nat),
        (∀ p, pages p = FetchResult.ok p (recs p)) →
        1 ≤ discovered_last_page linkMatch →
        get_stargazers pages linkMatch =
          .ok ((((List.range' 1 (discovered_last_page linkMatch)).takeWhile
              fun p => !(recs p).isEmpty).map recs).flatten)) := by
  constructor
  · intro repo page now reset body rest
    simp [fetch_page_loop]
  · intro pages recs linkMatch h hlp
    exact get_stargazers_char pages recs linkMatch h hlp

/-- The per-page record lists for the C8 witness: one record on page 1,
page 2 capped (zero records). -/
def recs8W : Nat → List StargazerRecord := fun p => if p = 1 then [recW] else []

/-- The per-page fetch outcomes for the C8 witness. -/
def pages8W : Nat → FetchResult := fun p => .ok p (recs8W p)

/-- Witness for C8: a 422 response yields the capped marker, and a source
whose page 2 is capped still loads its page 1 records successfully. -/
theorem hard_cap_is_benign_witness :
    fetch_page_loop "octocat/hello" 2 (0 : Int) [⟨422, none, []⟩] =
      ([], some (.ok 2 []))
    ∧ pages8W 2 = FetchResult.ok 2 []
    ∧ 1 ≤ discovered_last_page (some 3)
    ∧ get_stargazers pages8W (some 3) = .ok [recW] := by
  have h2 := hard_cap_is_benign.2 pages8W recs8W (some 3) (fun p => rfl)
    (by decide)
  refine ⟨hard_cap_is_benign.1 "octocat/hello" 2 0 none [] [], rfl,
    by decide, ?_⟩
  rw [h2]; rfl
